import Mathlib

/-!
Verification development for an AWS blog-post digest pipeline: an
incremental paginated scraper (crawl loop, card extractor, pagination
driver), two categorization strategies (URL-segment rule and a batch
text-inference job), and the two lambda entry points.  Each Python
function of the code base is embedded as an executable Lean definition;
external collaborators (browser/DOM, DynamoDB, S3, Bedrock, the process
clock) appear as explicit environment records whose fields hold the
values the collaborator would have returned.
-/

namespace AwsNews

/-! ### Python string primitives

The source manipulates Python `str` values with `in`, `replace`,
`strip`, `split` and `join`.  `strip`/`split`/`join` are mirrored by
`String.trim`/`String.splitOn`/`String.intercalate`; substring test and
replace-all are defined here on the underlying character lists. -/

/-- Python `needle in hay` on character lists: `needle` occurs as a
contiguous substring (the empty needle occurs everywhere). -/
def containsSub (needle : List Char) : List Char → Bool
  | [] => needle.isEmpty
  | c :: rest => needle.isPrefixOf (c :: rest) || containsSub needle rest

/-- Python `needle in hay` for strings. -/
def pyIn (needle hay : String) : Bool :=
  containsSub needle.data hay.data

/-- Worker for replace-all; the fuel argument (instantiated with the
length of the scanned list, which bounds the number of steps) only makes
the recursion structural. -/
def replaceAllGo (pat rep : List Char) : Nat → List Char → List Char
  | _, [] => []
  | 0, l => l
  | fuel + 1, c :: rest =>
    if pat ≠ [] ∧ pat.isPrefixOf (c :: rest) = true then
      rep ++ replaceAllGo pat rep fuel (rest.drop (pat.length - 1))
    else
      c :: replaceAllGo pat rep fuel rest

/-- Python `s.replace(pat, rep)`: replace every non-overlapping,
leftmost-first occurrence (the source only uses non-empty patterns, for
which this is exact). -/
def pyReplace (s pat rep : String) : String :=
  ⟨replaceAllGo pat.data rep.data s.data.length s.data⟩

/-- Python `s.strip()` on character lists (ASCII whitespace). -/
def pyStripL (l : List Char) : List Char :=
  ((l.dropWhile Char.isWhitespace).reverse.dropWhile Char.isWhitespace).reverse

/-- Python `s.strip()`. -/
def pyStrip (s : String) : String :=
  ⟨pyStripL s.data⟩

/-- Worker for `pySplit`; fuel as in `replaceAllGo`.  `cur` holds the
current chunk reversed. -/
def pySplitGo (sep : List Char) : Nat → List Char → List Char → List (List Char)
  | _, [], cur => [cur.reverse]
  | 0, l, cur => [cur.reverse ++ l]
  | fuel + 1, c :: rest, cur =>
    if sep.isPrefixOf (c :: rest) then
      cur.reverse :: pySplitGo sep fuel (rest.drop (sep.length - 1)) []
    else
      pySplitGo sep fuel rest (c :: cur)

/-- Python `s.split(sep)` for a non-empty separator. -/
def pySplit (s sep : String) : List String :=
  (pySplitGo sep.data s.data.length s.data []).map (fun l => ⟨l⟩)

/-- Python `sep.join(parts)`. -/
def pyJoin (sep : String) : List String → String
  | [] => ""
  | [x] => x
  | x :: y :: rest => x ++ sep ++ pyJoin sep (y :: rest)

/-- Python `s.split("/")[0]`. -/
def firstSegment (s : String) : String :=
  match pySplit s "/" with
  | [] => ""
  | h :: _ => h

/-! ### Data model

One record type serves every stage: a freshly scraped card has empty
`id` and `none` category/summary; the store adds `id`; categorization
fills `category`/`summary`/`processed`. -/

structure Item where
  id : String := ""
  title : String := ""
  url : String := ""
  author : String := ""
  date : String := ""
  description : String := ""
  category : Option String := none
  summary : Option String := none
  processed : Bool := false
deriving DecidableEq, Repr

/-! ### URL-segment categorization (`url_categorizer.py`) -/

/-- The hard-coded base URL of `get_category_from_url`. -/
def blogsBaseUrl : String := "https://aws.amazon.com/blogs/"

/-- `url.replace(base_url, '').split('/')[0]`. -/
def urlCategory (url : String) : String :=
  firstSegment (pyReplace url blogsBaseUrl "")

/-- The loop body of `get_category_from_url`: walks the posts, mutating
each post's `category` and accumulating the `categories` set (a Python
`set`, modelled as an insertion-ordered duplicate-free list; theorems
about it only use membership). -/
def getCategoryFromUrlAux : List Item → List String → List Item × List String
  | [], cats => ([], cats)
  | p :: rest, cats =>
    if pyIn blogsBaseUrl p.url then
      let c := urlCategory p.url
      let cats' := if c ∈ cats then cats else cats ++ [c]
      let r := getCategoryFromUrlAux rest cats'
      ({ p with category := some c } :: r.1, r.2)
    else
      let r := getCategoryFromUrlAux rest cats
      ({ p with category := some "unknown" } :: r.1, r.2)

/-- `get_category_from_url(posts)`: returns the updated posts and the
list of distinct categories used. -/
def get_category_from_url (posts : List Item) : List Item × List String :=
  getCategoryFromUrlAux posts []

/-! ### Card extractor (`manual_extractor.py`, `extract_post_info`)

A card element is modelled by what the DOM reads would return: the outer
`Option` of each field is the `query_selector` result, the inner
`Option String` the `text_content()` / `get_attribute` result.
`readFail` models an unexpected exception during the reads, which the
function's `except` clause converts to `None`. -/

structure Card where
  infoDiv : Option (Option String) := none
  titleAnchor : Option (Option String × Option String) := none
  descDiv : Option (Option String) := none
  readFail : Bool := false
deriving DecidableEq, Repr

/-- `extract_post_info(blog_element)`. -/
def extract_post_info (c : Card) : Option Item :=
  if c.readFail then none else
  match c.infoDiv with
  | none => none
  | some infoTextOpt =>
    let infoText := infoTextOpt.getD ""
    if pyStrip infoText = "" then none else
    let parts := (pySplit (pyStrip infoText) ",").map pyStrip
    if parts.length < 2 then none else
    let postDate := parts.getLastD ""
    let authors := pyJoin ", " parts.dropLast
    match c.titleAnchor with
    | none => none
    | some ta =>
      let title := pyStrip (ta.1.getD "")
      let url := pyStrip (ta.2.getD "")
      let description :=
        match c.descDiv with
        | none => ""
        | some dOpt => pyStrip (dOpt.getD "")
      if title = "" ∨ url = "" then none
      else some { title := title, url := url, author := authors,
                  date := postDate, description := description }

/-! ### Page scan (`process_blog_posts`) -/

/-- `any(post['url'] == u for post in posts)`. -/
def hasUrl (posts : List Item) (u : String) : Bool :=
  posts.any (fun p => p.url = u)

/-- The indexed loop of `process_blog_posts`: `total` is the number of
cards on the page, `i` the current index, `matching` the page's
accumulated matching posts, `lastM` the `last_post_matches` flag. -/
def processPostsGo (target : String) (existing : List Item) (total : Nat) :
    Nat → List Card → List Item → Bool → List Item × Bool
  | _, [], matching, lastM => (matching, lastM)
  | i, c :: rest, matching, lastM =>
    match extract_post_info c with
    | none => processPostsGo target existing total (i + 1) rest matching lastM
    | some info =>
      let matching' :=
        if info.date = target ∧ hasUrl (existing ++ matching) info.url = false then
          matching ++ [info]
        else matching
      let lastM' := if i = total - 1 ∧ info.date = target then true else lastM
      processPostsGo target existing total (i + 1) rest matching' lastM'

/-- `process_blog_posts(existing_posts)` over the currently visible
cards: returns the new matching posts (deduplicated against
`existing ++ matching` by url) and `last_post_matches`. -/
def process_blog_posts (target : String) (existing : List Item) (cards : List Card) :
    List Item × Bool :=
  processPostsGo target existing cards.length 0 cards [] false

/-! ### Pagination confirmation (`wait_for_new_content`) -/

/-- Timeout of strategy 1 (`wait_for_function`, ms). -/
def strategy1TimeoutMs : Nat := 15000
/-- Fixed wait of strategy 2 (ms). -/
def strategy2WaitMs : Nat := 5000
/-- Further fixed wait of strategy 3 (ms). -/
def strategy3WaitMs : Nat := 3000

/-- What the browser would have answered at each step of the tiered
wait: whether the 15 s wait saw the card count exceed `previousCount`,
the count re-sampled after the fixed 5 s wait, whether the load-more
button is still present after the further 3 s wait, and the final
re-sampled count. -/
structure WaitEnv where
  countIncreasedWithin15s : Bool
  countAfter5s : Nat
  buttonPresentAfter3s : Bool
  finalCount : Nat
deriving DecidableEq, Repr

/-- `wait_for_new_content(previous_count)`. -/
def wait_for_new_content (e : WaitEnv) (previousCount : Nat) : Bool :=
  if e.countIncreasedWithin15s then true
  else if previousCount < e.countAfter5s then true
  else if e.buttonPresentAfter3s = false then false
  else decide (previousCount < e.finalCount)

/-! ### Crawl loop (`get_blog_posts_for_date`)

The browser session is an environment giving, for each loop iteration
`k`, the visible cards, whether the initial card wait succeeded, whether
`find_load_more_button` found a button and the outcome of
`click_load_more_button` (which includes `wait_for_new_content`).  The
returned trace of events and the capacity warning flag are observability
ghosts mirroring the source's logging; the posts component is the return
value of the source function. -/

structure CrawlEnv where
  navOk : Bool := true
  pageLoadOk : Nat → Bool := fun _ => true
  cards : Nat → List Card := fun _ => []
  buttonFound : Nat → Bool := fun _ => false
  clickOk : Nat → Bool := fun _ => false

/-- One observable event of a crawl: a page scan (with the
`last_post_matches` outcome), a load-more-button lookup (with whether it
found one), a click-and-confirm attempt (with its outcome). -/
inductive CrawlEvent where
  | scan : Nat → Bool → CrawlEvent
  | button : Nat → Bool → CrawlEvent
  | click : Nat → Bool → CrawlEvent
deriving DecidableEq, Repr

/-- The `while load_count < self.max_loads` loop: `fuel` is
`max_loads - load_count`, `k` the iteration index, `posts` the
accumulator.  Returns the final posts, the event trace of the remaining
iterations, and whether the capacity warning (`load_count >= max_loads`)
fires at exit. -/
def crawlAux (env : CrawlEnv) (target : String) :
    Nat → Nat → List Item → Except String (List Item × List CrawlEvent × Bool)
  | 0, _, posts => .ok (posts, [], true)
  | fuel + 1, k, posts =>
    if env.pageLoadOk k then
      let pr := process_blog_posts target posts (env.cards k)
      let posts' := posts ++ pr.1
      if pr.2 = false then
        .ok (posts', [.scan k false], false)
      else if env.buttonFound k = false then
        .ok (posts', [.scan k true, .button k false], false)
      else if env.clickOk k = false then
        .ok (posts', [.scan k true, .button k true, .click k false], false)
      else
        match crawlAux env target fuel (k + 1) posts' with
        | .error e => .error e
        | .ok r => .ok (r.1, .scan k true :: .button k true :: .click k true :: r.2.1, r.2.2)
    else .error "Blog posts failed to load"

/-- Default `max_loads` of `BlogScraper.__init__`. -/
def defaultMaxLoads : Nat := 50

/-- `get_blog_posts_for_date(url)`: navigate, then run the crawl loop
from an empty accumulator. -/
def get_blog_posts_for_date (env : CrawlEnv) (target : String) (maxLoads : Nat) :
    Except String (List Item × List CrawlEvent × Bool) :=
  if env.navOk then crawlAux env target maxLoads 0 []
  else .error "Navigation timeout"

/-! ### Scraper entry point (`scraper/app.py`)

`get_previous_date()` renders the process-local clock; the environment
carries that rendering as `previousDate`. -/

/-- The target-date selection of the scraper's `lambda_handler`:
`event['target_date'] if 'target_date' in event else None`, then
`if target_date: ... else: target_date = get_previous_date()` (Python
truthiness: a present but empty string also falls back). -/
def scraper_select_target_date (eventTargetDate : Option String) (previousDate : String) :
    String :=
  match eventTargetDate with
  | some d => if d = "" then previousDate else d
  | none => previousDate

/-- The JSON body of a scraper response: a message, optionally together
with a `posts` list. -/
inductive ScraperBody where
  | msg : String → ScraperBody
  | msgWithPosts : String → List Item → ScraperBody
deriving DecidableEq, Repr

structure ScraperResponse where
  statusCode : Nat
  body : ScraperBody
deriving DecidableEq, Repr

/-- Collaborators of the scraper handler: the event's optional
`target_date`, the clock rendering, the DynamoDB scan by date, the crawl
session and the DynamoDB batch save (each fallible step is an `Except`
whose error is the exception's message). -/
structure ScraperEnv where
  eventTargetDate : Option String := none
  previousDate : String := ""
  getPostsByDate : String → Except String (List Item) := fun _ => .ok []
  crawl : CrawlEnv := {}
  savePosts : List Item → Except String Unit := fun _ => .ok ()

/-- The body of the scraper `lambda_handler`'s `try` block; an
`Except.error` is an exception travelling up to the handler's `except`
clause. -/
def scraper_handler_core (env : ScraperEnv) : Except String ScraperResponse :=
  let t := scraper_select_target_date env.eventTargetDate env.previousDate
  match env.getPostsByDate t with
  | .error e => .error e
  | .ok existing =>
    if existing ≠ [] then
      .ok ⟨200, .msgWithPosts
        ("Found " ++ toString existing.length ++ " existing posts for the target date: " ++ t)
        existing⟩
    else
      match get_blog_posts_for_date env.crawl t defaultMaxLoads with
      | .error e => .error e
      | .ok r =>
        let blogPosts := r.1
        if blogPosts = [] then
          .ok ⟨200, .msg ("No blog posts found for the target date: " ++ t)⟩
        else
          match env.savePosts blogPosts with
          | .error e => .error e
          | .ok _ =>
            .ok ⟨200, .msgWithPosts
              ("Successfully scraped " ++ toString blogPosts.length ++ " AWS blog posts")
              blogPosts⟩

/-- The scraper `lambda_handler`: catches every exception of the core
and converts it to a 500 response. -/
def scraper_lambda_handler (env : ScraperEnv) : ScraperResponse :=
  match scraper_handler_core env with
  | .ok r => r
  | .error e => ⟨500, .msg ("Error scraping AWS blog: " ++ e)⟩

/-! ### Batch inference (`batch_inference.py`) -/

/-- Bedrock job status as checked by `monitor_batch_job`. -/
inductive JobStatus where
  | submitted
  | inProgress
  | completed
  | failed
  | other
deriving DecidableEq, Repr

/-- `max_wait_minutes * 60` for the default `max_wait_minutes=60`. -/
def monitorMaxWaitSeconds : Nat := 3600
/-- The fixed `time.sleep(60)` between polls. -/
def monitorPollIntervalSeconds : Nat := 60

/-- The polling loop of `monitor_batch_job` over the job's status trace
(`status k` = status returned by the `k`-th poll).  Polls are modelled
as instantaneous and exactly 60 s apart, so the elapsed time at poll `k`
is `60 * k` seconds.  The status check precedes the timeout check, as in
the source.  `fuel` only makes the recursion structural; `none` means it
ran out. -/
def monitorAux (status : Nat → JobStatus) : Nat → Nat → Option Bool
  | 0, _ => none
  | fuel + 1, k =>
    match status k with
    | .completed => some true
    | .failed => some false
    | _ =>
      if monitorPollIntervalSeconds * k > monitorMaxWaitSeconds then some false
      else monitorAux status fuel (k + 1)

/-- `monitor_batch_job(job_arn)`: with the timeout check firing at poll
61 (elapsed 3660 s > 3600 s), 62 polls always suffice for a decision, so
the fuel never runs out. -/
def monitor_batch_job (status : Nat → JobStatus) : Bool :=
  (monitorAux status 62 0).getD false

/-- One parsed line of a batch-inference output file, after the JSON and
`modelOutput` navigation: its `recordId` and the model's text. -/
structure InferenceRecord where
  recordId : String
  text : String
deriving DecidableEq, Repr

/-- One value of the `results` dict built by
`download_and_parse_results`. -/
structure ResultEntry where
  categories : Option (List String) := none
  summary : Option String := none
deriving DecidableEq, Repr

/-- `results[post_id]['categories'] = cats`, creating the entry if
absent (insertion-ordered association list models the Python dict). -/
def setCategories (m : List (String × ResultEntry)) (pid : String) (cats : List String) :
    List (String × ResultEntry) :=
  match m with
  | [] => [(pid, { categories := some cats })]
  | (q, e) :: rest =>
    if q = pid then (q, { e with categories := some cats }) :: rest
    else (q, e) :: setCategories rest pid cats

/-- `results[post_id]['summary'] = s`, creating the entry if absent. -/
def setSummary (m : List (String × ResultEntry)) (pid : String) (s : String) :
    List (String × ResultEntry) :=
  match m with
  | [] => [(pid, { summary := some s })]
  | (q, e) :: rest =>
    if q = pid then (q, { e with summary := some s }) :: rest
    else (q, e) :: setSummary rest pid s

/-- The categorization-file loop of `download_and_parse_results`:
`post_id = record_id.replace('_cat', '')`, categories split on commas
and stripped. -/
def parseCatLines : List InferenceRecord → List (String × ResultEntry) →
    List (String × ResultEntry)
  | [], m => m
  | r :: rest, m =>
    let pid := pyReplace r.recordId "_cat" ""
    let cats := (pySplit r.text ",").map pyStrip
    parseCatLines rest (setCategories m pid cats)

/-- The summarization-file loop of `download_and_parse_results`. -/
def parseSumLines : List InferenceRecord → List (String × ResultEntry) →
    List (String × ResultEntry)
  | [], m => m
  | r :: rest, m =>
    let pid := pyReplace r.recordId "_sum" ""
    parseSumLines rest (setSummary m pid r.text)

/-- `download_and_parse_results(job_arn, output_s3_prefix)`: each file's
records, `none` when its download raised (the per-file `except` clause
then leaves `results` as it was). -/
def download_and_parse_results (catFile sumFile : Option (List InferenceRecord)) :
    List (String × ResultEntry) :=
  let m := match catFile with
    | none => []
    | some rs => parseCatLines rs []
  match sumFile with
  | none => m
  | some rs => parseSumLines rs m

/-- The per-post write of `update_posts_with_results`: fallbacks
`['Uncategorized']` / `'Summary not available.'` for a missing half,
category persisted as the comma-joined string. -/
def updateItemWith (item : Item) (e : ResultEntry) : Item :=
  { item with
    category := some (pyJoin "," (e.categories.getD ["Uncategorized"])),
    summary := some (e.summary.getD "Summary not available."),
    processed := true }

/-- `update_posts_with_results(results)` against the post store
(`store pid` = result of `table.get_item`): a post id with no stored
item is skipped.  Returns `updated_count` and the written items. -/
def update_posts_with_results (results : List (String × ResultEntry))
    (store : String → Option Item) : Nat × List Item :=
  results.foldl
    (fun acc pe =>
      match store pe.1 with
      | some item => (acc.1 + 1, acc.2 ++ [updateItemWith item pe.2])
      | none => acc)
    (0, [])

/-- Everything `run_batch_inference` asks its collaborators, as the
values they would return.  `posts` is `get_posts_for_batch(date, limit)`;
`parseTimestamp` is `datetime.strptime(date, ...)` (which raises when
`date` is `None`); the two `upload_to_s3` calls are omitted because the
source ignores their boolean results; `catStatus`/`sumStatus` are the
jobs' status traces; `removeFiles` covers the two `os.remove` calls. -/
structure BatchEnv where
  posts : Option String → Except String (List Item) := fun _ => .ok []
  parseTimestamp : String → Except String Nat := fun _ => .ok 0
  roleArn : Except String String := .ok "role"
  submitCat : Except String String := .ok "cat-arn"
  submitSum : Except String String := .ok "sum-arn"
  catStatus : Nat → JobStatus := fun _ => .completed
  sumStatus : Nat → JobStatus := fun _ => .completed
  catFile : Option (List InferenceRecord) := none
  sumFile : Option (List InferenceRecord) := none
  store : String → Option Item := fun _ => none
  removeFiles : Except String Unit := .ok ()

/-- The result dict of `run_batch_inference` (every return path). -/
structure RunResult where
  error : Option String := none
  processedCount : Option Nat := none
  message : Option String := none
  categorizationJob : Option String := none
  summarizationJob : Option String := none
deriving DecidableEq, Repr

/-- `run_batch_inference(date, limit)`: returns the result dict and, as
an observability ghost, the list of items persisted by
`update_posts_with_results` (empty on every path that never merges).
The outer `try/except` of the source converts any exception to an
`{"error": ...}` dict, so the embedding is total. -/
def run_batch_inference (env : BatchEnv) (date : Option String) : RunResult × List Item :=
  match env.posts date with
  | .error e => ({ error := some e }, [])
  | .ok posts =>
    if posts = [] then
      ({ processedCount := some 0, message := some "No posts to process" }, [])
    else
      match (match date with
             | none => Except.error "strptime() argument 1 must be str, not NoneType"
             | some d => env.parseTimestamp d) with
      | .error e => ({ error := some e }, [])
      | .ok _ =>
        match env.roleArn with
        | .error e => ({ error := some e }, [])
        | .ok _ =>
          match env.submitCat with
          | .error e => ({ error := some e }, [])
          | .ok catArn =>
            match env.submitSum with
            | .error e => ({ error := some e }, [])
            | .ok sumArn =>
              let catSuccess := monitor_batch_job env.catStatus
              let sumSuccess := monitor_batch_job env.sumStatus
              if !(catSuccess && sumSuccess) then
                ({ error := some "One or more batch jobs failed" }, [])
              else
                let results := download_and_parse_results env.catFile env.sumFile
                let r := update_posts_with_results results env.store
                match env.removeFiles with
                | .error e => ({ error := some e }, r.2)
                | .ok _ =>
                  ({ processedCount := some r.1,
                     categorizationJob := some catArn,
                     summarizationJob := some sumArn }, r.2)

/-! ### Categorizer entry point (`categorizer/app.py`) -/

/-- The date selection of the categorizer's `lambda_handler`, verbatim
from `date = event.get('date') if not 'date' in event else
get_previous_date()`: when the key is present its value is ignored and
yesterday is used; when it is absent, `event.get('date')` is `None`. -/
def categorizer_select_date (eventDate : Option String) (previousDate : String) :
    Option String :=
  match eventDate with
  | some _ => some previousDate
  | none => none

/-- The JSON body of a categorizer response. -/
inductive CategorizerBody where
  | msg : String → CategorizerBody
  | batch : RunResult → CategorizerBody
  | postsAndCategories : List Item → List String → CategorizerBody
deriving DecidableEq, Repr

structure CategorizerResponse where
  statusCode : Nat
  body : CategorizerBody
deriving DecidableEq, Repr

/-- Collaborators of the categorizer handler.  `getUnprocessedPostsByDate`
is `get_post(date=...)`; `saveCategories` is `save_categories_for_date`;
`updatePostBatch` is `update_post_batch(posts_data=...)`. -/
structure CategorizerEnv where
  eventDate : Option String := none
  previousDate : String := ""
  genaiModel : Bool := false
  batch : BatchEnv := {}
  getUnprocessedPostsByDate : String → Except String (List Item) := fun _ => .ok []
  saveCategories : String → List String → Except String Unit := fun _ _ => .ok ()
  updatePostBatch : List Item → Except String (List String) := fun _ => .ok []

/-- The body of the categorizer `lambda_handler`'s `try` block.  In the
GENAI branch, `run_batch_inference` always returns a non-empty dict, so
the source's `if not posts` no-posts branch can never fire there.  In
the manual branch, a `None` date makes `get_post` raise `ValueError`. -/
def categorizer_handler_core (env : CategorizerEnv) : Except String CategorizerResponse :=
  let date := categorizer_select_date env.eventDate env.previousDate
  if env.genaiModel then
    let r := run_batch_inference env.batch date
    .ok ⟨200, .batch r.1⟩
  else
    match date with
    | none => .error "Either post_id or date must be provided"
    | some d =>
      match env.getUnprocessedPostsByDate d with
      | .error e => .error e
      | .ok posts =>
        if posts = [] then
          .ok ⟨200, .msg ("No unprocessed posts found for date " ++ d)⟩
        else
          let uc := get_category_from_url posts
          match env.saveCategories d uc.2 with
          | .error e => .error e
          | .ok _ =>
            match env.updatePostBatch uc.1 with
            | .error e => .error e
            | .ok _ => .ok ⟨200, .postsAndCategories uc.1 uc.2⟩

/-- The categorizer `lambda_handler`: catches every exception of the
core and converts it to a 500 response. -/
def categorizer_lambda_handler (env : CategorizerEnv) : CategorizerResponse :=
  match categorizer_handler_core env with
  | .ok r => r
  | .error e => ⟨500, .msg ("Error processing post: " ++ e)⟩

/-! ## Helper lemmas -/

/-- The updated-posts component of the url-categorizer loop does not
depend on the accumulated category set: each post's category is the
derived segment when the url contains the base prefix, the fallback
otherwise. -/
theorem getCategoryFromUrlAux_fst (posts : List Item) (cats : List String) :
    (getCategoryFromUrlAux posts cats).1 =
      posts.map (fun p =>
        { p with
            category := some (if pyIn blogsBaseUrl p.url then urlCategory p.url else "unknown") }) := by
  induction posts generalizing cats with
  | nil => rfl
  | cons p rest ih =>
    simp only [getCategoryFromUrlAux, List.map_cons]
    split
    · simp_all
    · simp_all

/-- Membership in the category set accumulated by the url-categorizer
loop: exactly the initial members plus the categories derived from the
urls that contain the base prefix. -/
theorem mem_getCategoryFromUrlAux_snd (c : String) (posts : List Item) (cats : List String) :
    c ∈ (getCategoryFromUrlAux posts cats).2 ↔
      c ∈ cats ∨ ∃ p, p ∈ posts ∧ pyIn blogsBaseUrl p.url = true ∧ urlCategory p.url = c := by
  induction posts generalizing cats with
  | nil => simp [getCategoryFromUrlAux]
  | cons p rest ih =>
    simp only [getCategoryFromUrlAux]
    split
    · next hin =>
      rw [ih]
      by_cases hc : urlCategory p.url ∈ cats
      · simp only [if_pos hc]
        constructor
        · rintro (h | h)
          · exact Or.inl h
          · exact Or.inr ⟨h.choose, List.mem_cons_of_mem _ h.choose_spec.1, h.choose_spec.2⟩
        · rintro (h | ⟨q, hq, hq2, hq3⟩)
          · exact Or.inl h
          · rcases List.mem_cons.mp hq with rfl | hq
            · exact Or.inl (hq3 ▸ hc)
            · exact Or.inr ⟨q, hq, hq2, hq3⟩
      · simp only [if_neg hc, List.mem_append, List.mem_singleton]
        constructor
        · rintro ((h | rfl) | h)
          · exact Or.inl h
          · exact Or.inr ⟨p, List.mem_cons_self _ _, hin, rfl⟩
          · exact Or.inr ⟨h.choose, List.mem_cons_of_mem _ h.choose_spec.1, h.choose_spec.2⟩
        · rintro (h | ⟨q, hq, hq2, hq3⟩)
          · exact Or.inl (Or.inl h)
          · rcases List.mem_cons.mp hq with rfl | hq
            · exact Or.inl (Or.inr hq3.symm)
            · exact Or.inr ⟨q, hq, hq2, hq3⟩
    · next hin =>
      rw [ih]
      constructor
      · rintro (h | ⟨q, hq, hq2, hq3⟩)
        · exact Or.inl h
        · exact Or.inr ⟨q, List.mem_cons_of_mem _ hq, hq2, hq3⟩
      · rintro (h | ⟨q, hq, hq2, hq3⟩)
        · exact Or.inl h
        · rcases List.mem_cons.mp hq with rfl | hq
          · simp [hq2] at hin
          · exact Or.inr ⟨q, hq, hq2, hq3⟩

/-- Number of successful click-and-confirm cycles recorded in a crawl
trace. -/
def countTrueClicks (tr : List CrawlEvent) : Nat :=
  (tr.filter fun e => match e with | .click _ true => true | _ => false).length

/-- Shape of every successful run of the crawl loop: (a) with fuel left
the iteration's scan is traced first; (b) a button lookup at iteration
`j` happens only after the scan at `j` reported a matching trailing
card; (c) a click attempt at `j` happens only after a button was found
at `j`; (d) the capacity warning fires exactly when every fuel unit was
spent on a fully successful cycle. -/
theorem crawlAux_trace_spec (env : CrawlEnv) (target : String) :
    ∀ (fuel k : Nat) (posts final : List Item) (tr : List CrawlEvent) (warn : Bool),
      crawlAux env target fuel k posts = .ok (final, tr, warn) →
      (1 ≤ fuel → ∃ m, CrawlEvent.scan k m ∈ tr) ∧
      (∀ j f, CrawlEvent.button j f ∈ tr → CrawlEvent.scan j true ∈ tr) ∧
      (∀ j b, CrawlEvent.click j b ∈ tr → CrawlEvent.button j true ∈ tr) ∧
      (warn = true ↔ countTrueClicks tr = fuel) := by
  intro fuel
  induction fuel with
  | zero =>
    intro k posts final tr warn h
    simp only [crawlAux, Except.ok.injEq, Prod.mk.injEq] at h
    obtain ⟨-, rfl, rfl⟩ := h
    simp [countTrueClicks]
  | succ fuel ih =>
    intro k posts final tr warn h
    rw [crawlAux] at h
    by_cases hp : env.pageLoadOk k
    · rw [if_pos hp] at h
      by_cases hm : (process_blog_posts target posts (env.cards k)).2 = false
      · rw [if_pos hm] at h
        simp only [Except.ok.injEq, Prod.mk.injEq] at h
        obtain ⟨-, rfl, rfl⟩ := h
        refine ⟨fun _ => ⟨false, by simp⟩, ?_, ?_, by simp [countTrueClicks]⟩
        · intro j f hj; simp at hj
        · intro j b hj; simp at hj
      · rw [if_neg hm] at h
        by_cases hb : env.buttonFound k = false
        · rw [if_pos hb] at h
          simp only [Except.ok.injEq, Prod.mk.injEq] at h
          obtain ⟨-, rfl, rfl⟩ := h
          refine ⟨fun _ => ⟨true, by simp⟩, ?_, ?_, by simp [countTrueClicks]⟩
          · intro j f hj
            simp only [List.mem_cons, List.mem_singleton, List.not_mem_nil] at hj
            rcases hj with hj | hj | hj
            · exact absurd hj (by simp)
            · obtain ⟨rfl, rfl⟩ : j = k ∧ f = false := by simpa using hj
              simp
            · exact absurd hj (by simp)
          · intro j b hj; simp at hj
        · rw [if_neg hb] at h
          by_cases hc : env.clickOk k = false
          · rw [if_pos hc] at h
            simp only [Except.ok.injEq, Prod.mk.injEq] at h
            obtain ⟨-, rfl, rfl⟩ := h
            refine ⟨fun _ => ⟨true, by simp⟩, ?_, ?_, by simp [countTrueClicks]⟩
            · intro j f hj
              simp only [List.mem_cons, List.not_mem_nil, or_false] at hj
              rcases hj with hj | hj | hj
              · exact absurd hj (by simp)
              · obtain ⟨rfl, rfl⟩ : j = k ∧ f = true := by simpa using hj
                simp
              · exact absurd hj (by simp)
            · intro j b hj
              simp only [List.mem_cons, List.not_mem_nil, or_false] at hj
              rcases hj with hj | hj | hj
              · exact absurd hj (by simp)
              · exact absurd hj (by simp)
              · obtain ⟨rfl, rfl⟩ : j = k ∧ b = false := by simpa using hj
                simp
          · rw [if_neg hc] at h
            cases hrec : crawlAux env target fuel (k + 1)
                (posts ++ (process_blog_posts target posts (env.cards k)).1) with
            | error e => rw [hrec] at h; cases h
            | ok r =>
              rw [hrec] at h
              simp only [Except.ok.injEq, Prod.mk.injEq] at h
              obtain ⟨-, rfl, rfl⟩ := h
              obtain ⟨ihs, ihb, ihc, ihw⟩ := ih (k + 1) _ r.1 r.2.1 r.2.2 (by rw [hrec])
              refine ⟨fun _ => ⟨true, by simp⟩, ?_, ?_, ?_⟩
              · intro j f hj
                simp only [List.mem_cons] at hj
                rcases hj with hj | hj | hj | hj
                · exact absurd hj (by simp)
                · obtain ⟨rfl, rfl⟩ : j = k ∧ f = true := by simpa using hj
                  simp
                · exact absurd hj (by simp)
                · have := ihb j f hj
                  simp [this]
              · intro j b hj
                simp only [List.mem_cons] at hj
                rcases hj with hj | hj | hj | hj
                · exact absurd hj (by simp)
                · exact absurd hj (by simp)
                · obtain ⟨rfl, rfl⟩ : j = k ∧ b = true := by simpa using hj
                  simp
                · have := ihc j b hj
                  simp [this]
              · have hcount : countTrueClicks
                    (CrawlEvent.scan k true :: CrawlEvent.button k true ::
                      CrawlEvent.click k true :: r.2.1) = countTrueClicks r.2.1 + 1 := by
                  simp [countTrueClicks, Nat.add_comm]
                rw [hcount, ihw]
                omega
    · rw [if_neg hp] at h
      cases h

/-! ## Claims -/

/-! ### Concrete fixtures shared by several claims -/

/-- A well-formed card whose post (`itemA`) is dated `d1`. -/
def cardA : Card := { infoDiv := some (some "au,d1"), titleAnchor := some (some "A", some "u1") }

/-- A second well-formed card whose post (`itemB`) is dated `d1`. -/
def cardB : Card := { infoDiv := some (some "au,d1"), titleAnchor := some (some "B", some "u2") }

/-- A malformed card: no info sub-element, so extraction returns
`none`. -/
def cardBad : Card := {}

/-- The post extracted from `cardA`. -/
def itemA : Item := { title := "A", url := "u1", author := "au", date := "d1" }

/-- The post extracted from `cardB`. -/
def itemB : Item := { title := "B", url := "u2", author := "au", date := "d1" }

/-- A one-page browser session whose single page holds the single
matching card `cardA`. -/
def c2Env : CrawlEnv := { cards := fun _ => [cardA] }

/-- C1: the claim says both entry points use the event-supplied date
when present and default to yesterday when absent.  The scraper does;
the categorizer's selection (`date = event.get('date') if not 'date' in
event else get_previous_date()`) has the condition inverted: with the
date key present the supplied value `06/19/2025` is ignored in favour of
yesterday (`10/11/2026` here), and with the key absent the date is
`None` instead of yesterday.  The spec (and the scraper) show the
intent; the categorizer code is a slip. -/
theorem c1_date_selection_inverted :
    categorizer_select_date (some "06/19/2025") "10/11/2026" = some "10/11/2026" ∧
    some "10/11/2026" ≠ (some "06/19/2025" : Option String) ∧
    categorizer_select_date none "10/11/2026" = none ∧
    scraper_select_target_date (some "06/19/2025") "10/11/2026" = "06/19/2025" ∧
    scraper_select_target_date none "10/11/2026" = "10/11/2026" :=
  ⟨rfl, by decide, rfl, by decide, rfl⟩

/-- C2 counterexample: the claim says at least one scan occurs for every
`maxLoads` value including 0.  The source loop is
`while load_count < self.max_loads`, so with `max_loads = 0` the body
never runs: no scan happens (empty trace), the result is empty and the
capacity warning fires — even though the first page held a matching
post the scan would have collected, as the second conjunct shows. -/
theorem c2_counterexample_zero_max_loads :
    get_blog_posts_for_date c2Env "d1" 0 = .ok ([], [], true) ∧
    process_blog_posts "d1" [] (c2Env.cards 0) = ([itemA], true) :=
  ⟨rfl, by decide⟩

/-- C2 (amended): within each executed cycle the terminal conditions are
checked in the claimed order — the date-boundary check right after the
scan, the extend-control lookup only after a matching trailing card, the
extension attempt only after a control was found — and the `maxLoads`
bound (default 50) is enforced by the loop guard with a non-fatal
warning; but the guard is checked before the first scan, so with
`maxLoads = 0` no scan occurs at all (at least one scan is guaranteed
only for `maxLoads ≥ 1`). -/
theorem c2_terminal_condition_order :
    defaultMaxLoads = 50 ∧
    (∀ (env : CrawlEnv) (target : String),
      get_blog_posts_for_date env target 0 =
        if env.navOk then .ok ([], [], true) else .error "Navigation timeout") ∧
    (∀ (env : CrawlEnv) (target : String) (maxLoads : Nat)
        (final : List Item) (tr : List CrawlEvent) (warn : Bool),
      get_blog_posts_for_date env target maxLoads = .ok (final, tr, warn) →
      (1 ≤ maxLoads → ∃ m, CrawlEvent.scan 0 m ∈ tr) ∧
      (∀ j f, CrawlEvent.button j f ∈ tr → CrawlEvent.scan j true ∈ tr) ∧
      (∀ j b, CrawlEvent.click j b ∈ tr → CrawlEvent.button j true ∈ tr) ∧
      (warn = true ↔ countTrueClicks tr = maxLoads)) := by
  refine ⟨rfl, fun env target => ?_, fun env target maxLoads final tr warn h => ?_⟩
  · rw [get_blog_posts_for_date]
    split
    · rfl
    · rfl
  · rw [get_blog_posts_for_date] at h
    split at h
    · exact crawlAux_trace_spec env target maxLoads 0 [] final tr warn h
    · cases h

/-- C2 witness: on the one-page session with `maxLoads = 1` the crawl
stops at the missing extend control; the traced button lookup is
preceded by a scan reporting a matching trailing card. -/
theorem c2_terminal_condition_order_witness :
    CrawlEvent.scan 0 true ∈ [CrawlEvent.scan 0 true, CrawlEvent.button 0 false] :=
  (c2_terminal_condition_order.2.2 c2Env "d1" 1 [itemA]
    [CrawlEvent.scan 0 true, CrawlEvent.button 0 false] false rfl).2.1 0 false (by decide)

/-- Url lookup distributes over list append. -/
theorem hasUrl_append (a b : List Item) (u : String) :
    hasUrl (a ++ b) u = (hasUrl a u || hasUrl b u) :=
  List.any_append

/-- The page-scan loop only appends: the matching list it returns
extends its accumulator with records whose urls are absent from
`existing ++ matching` at insertion time, hence pairwise distinct and
disjoint from `existing`. -/
theorem processPostsGo_fresh (target : String) (existing : List Item) (total : Nat) :
    ∀ (cards : List Card) (i : Nat) (matching : List Item) (lastM : Bool),
      ∃ fresh,
        (processPostsGo target existing total i cards matching lastM).1 = matching ++ fresh ∧
        (∀ p ∈ fresh, hasUrl (existing ++ matching) p.url = false) ∧
        ((fresh.map fun p => p.url).Nodup) := by
  intro cards
  induction cards with
  | nil =>
    intro i matching lastM
    exact ⟨[], by simp [processPostsGo]⟩
  | cons c rest ih =>
    intro i matching lastM
    rw [processPostsGo]
    cases hext : extract_post_info c with
    | none => exact ih (i + 1) matching lastM
    | some info =>
      simp only []
      by_cases hcond : info.date = target ∧ hasUrl (existing ++ matching) info.url = false
      · rw [if_pos hcond]
        obtain ⟨fresh', h1, h2, h3⟩ :=
          ih (i + 1) (matching ++ [info]) (if i = total - 1 ∧ info.date = target then true else lastM)
        refine ⟨info :: fresh', ?_, ?_, ?_⟩
        · rw [h1, List.append_assoc]
          rfl
        · intro p hp
          rcases List.mem_cons.mp hp with rfl | hp
          · exact hcond.2
          · have := h2 p hp
            rw [← List.append_assoc, hasUrl_append, Bool.or_eq_false_iff] at this
            exact this.1
        · rw [List.map_cons, List.nodup_cons]
          refine ⟨?_, h3⟩
          intro hmem
          rcases List.mem_map.mp hmem with ⟨p, hp, hpu⟩
          have := h2 p hp
          rw [← List.append_assoc, hasUrl_append, Bool.or_eq_false_iff] at this
          have h4 := this.2
          simp [hasUrl, hpu] at h4
      · rw [if_neg hcond]
        exact ih (i + 1) matching (if i = total - 1 ∧ info.date = target then true else lastM)

/-- The crawl loop only appends: a successful crawl extends its
accumulator with records whose urls are pairwise distinct and absent
from the accumulator it started from. -/
theorem crawlAux_fresh (env : CrawlEnv) (target : String) :
    ∀ (fuel k : Nat) (existing final : List Item) (tr : List CrawlEvent) (warn : Bool),
      crawlAux env target fuel k existing = .ok (final, tr, warn) →
      ∃ fresh, final = existing ++ fresh ∧
        (∀ p ∈ fresh, hasUrl existing p.url = false) ∧
        ((fresh.map fun p => p.url).Nodup) := by
  intro fuel
  induction fuel with
  | zero =>
    intro k existing final tr warn h
    simp only [crawlAux, Except.ok.injEq, Prod.mk.injEq] at h
    obtain ⟨rfl, -, -⟩ := h
    exact ⟨[], by simp⟩
  | succ fuel ih =>
    intro k existing final tr warn h
    rw [crawlAux] at h
    obtain ⟨fresh0, hf0, hf0u, hf0n⟩ := processPostsGo_fresh target existing
      (env.cards k).length (env.cards k) 0 [] false
    rw [List.nil_append] at hf0
    have hfresh0 : (process_blog_posts target existing (env.cards k)).1 = fresh0 := hf0
    have hf0u' : ∀ p ∈ fresh0, hasUrl existing p.url = false := by
      intro p hp
      have := hf0u p hp
      rwa [List.append_nil] at this
    by_cases hp : env.pageLoadOk k
    · rw [if_pos hp] at h
      by_cases hm : (process_blog_posts target existing (env.cards k)).2 = false
      · rw [if_pos hm] at h
        simp only [Except.ok.injEq, Prod.mk.injEq] at h
        obtain ⟨rfl, -, -⟩ := h
        exact ⟨fresh0, by rw [hfresh0], hf0u', hf0n⟩
      · rw [if_neg hm] at h
        by_cases hb : env.buttonFound k = false
        · rw [if_pos hb] at h
          simp only [Except.ok.injEq, Prod.mk.injEq] at h
          obtain ⟨rfl, -, -⟩ := h
          exact ⟨fresh0, by rw [hfresh0], hf0u', hf0n⟩
        · rw [if_neg hb] at h
          by_cases hc : env.clickOk k = false
          · rw [if_pos hc] at h
            simp only [Except.ok.injEq, Prod.mk.injEq] at h
            obtain ⟨rfl, -, -⟩ := h
            exact ⟨fresh0, by rw [hfresh0], hf0u', hf0n⟩
          · rw [if_neg hc] at h
            cases hrec : crawlAux env target fuel (k + 1)
                (existing ++ (process_blog_posts target existing (env.cards k)).1) with
            | error e => rw [hrec] at h; cases h
            | ok r =>
              rw [hrec] at h
              simp only [Except.ok.injEq, Prod.mk.injEq] at h
              obtain ⟨rfl, -, -⟩ := h
              obtain ⟨fresh', h1, h2, h3⟩ := ih (k + 1) _ r.1 r.2.1 r.2.2 (by rw [hrec])
              rw [hfresh0] at h1 h2
              refine ⟨fresh0 ++ fresh', ?_, ?_, ?_⟩
              · rw [h1, List.append_assoc]
              · intro p hpp
                rcases List.mem_append.mp hpp with hpp | hpp
                · exact hf0u' p hpp
                · have := h2 p hpp
                  rw [hasUrl_append, Bool.or_eq_false_iff] at this
                  exact this.1
              · rw [List.map_append, List.nodup_append]
                refine ⟨hf0n, h3, ?_⟩
                intro u hu1 hu2
                rcases List.mem_map.mp hu1 with ⟨p, hp1, rfl⟩
                rcases List.mem_map.mp hu2 with ⟨q, hq1, hqu⟩
                have h5 := h2 q hq1
                rw [hasUrl_append, Bool.or_eq_false_iff] at h5
                have h6 : hasUrl fresh0 q.url = true := by
                  simp only [hasUrl, List.any_eq_true]
                  exact ⟨p, hp1, by simp [hqu]⟩
                rw [h6] at h5
                exact absurd h5.2 (by simp)
    · rw [if_neg hp] at h
      cases h



/-- If every matching extractable card's url is already in `existing`,
the page scan adds nothing. -/
theorem processPostsGo_no_new (target : String) (existing : List Item) (total : Nat) :
    ∀ (cards : List Card) (i : Nat) (matching : List Item) (lastM : Bool),
      (∀ c ∈ cards, ∀ info, extract_post_info c = some info → info.date = target →
        hasUrl existing info.url = true) →
      (processPostsGo target existing total i cards matching lastM).1 = matching := by
  intro cards
  induction cards with
  | nil => intro i matching lastM _; rfl
  | cons c rest ih =>
    intro i matching lastM hall
    rw [processPostsGo]
    cases hext : extract_post_info c with
    | none => exact ih (i + 1) matching lastM (fun c' hc' => hall c' (List.mem_cons_of_mem _ hc'))
    | some info =>
      simp only []
      have hcond : ¬ (info.date = target ∧ hasUrl (existing ++ matching) info.url = false) := by
        rintro ⟨hdate, hfalse⟩
        have := hall c (List.mem_cons_self _ _) info hext hdate
        rw [hasUrl_append, this] at hfalse
        simp at hfalse
      rw [if_neg hcond]
      exact ih (i + 1) matching _ (fun c' hc' => hall c' (List.mem_cons_of_mem _ hc'))

/-- If every matching extractable card on every page is already in
`existing`, the crawl returns `existing` unchanged. -/
theorem crawlAux_no_new (env : CrawlEnv) (target : String) :
    ∀ (fuel k : Nat) (existing final : List Item) (tr : List CrawlEvent) (warn : Bool),
      (∀ j c, c ∈ env.cards j → ∀ info, extract_post_info c = some info →
        info.date = target → hasUrl existing info.url = true) →
      crawlAux env target fuel k existing = .ok (final, tr, warn) →
      final = existing := by
  intro fuel
  induction fuel with
  | zero =>
    intro k existing final tr warn _ h
    simp only [crawlAux, Except.ok.injEq, Prod.mk.injEq] at h
    exact h.1.symm
  | succ fuel ih =>
    intro k existing final tr warn hall h
    rw [crawlAux] at h
    have hempty : (process_blog_posts target existing (env.cards k)).1 = [] :=
      processPostsGo_no_new target existing (env.cards k).length (env.cards k) 0 [] false
        (fun c hc => hall k c hc)
    by_cases hp : env.pageLoadOk k
    · rw [if_pos hp] at h
      simp only [hempty, List.append_nil] at h
      by_cases hm : (process_blog_posts target existing (env.cards k)).2 = false
      · rw [if_pos hm] at h
        simp only [Except.ok.injEq, Prod.mk.injEq] at h
        exact h.1.symm
      · rw [if_neg hm] at h
        by_cases hb : env.buttonFound k = false
        · rw [if_pos hb] at h
          simp only [Except.ok.injEq, Prod.mk.injEq] at h
          exact h.1.symm
        · rw [if_neg hb] at h
          by_cases hc : env.clickOk k = false
          · rw [if_pos hc] at h
            simp only [Except.ok.injEq, Prod.mk.injEq] at h
            exact h.1.symm
          · rw [if_neg hc] at h
            cases hrec : crawlAux env target fuel (k + 1) existing with
            | error e => rw [hrec] at h; cases h
            | ok r =>
              rw [hrec] at h
              simp only [Except.ok.injEq, Prod.mk.injEq] at h
              have := ih (k + 1) existing r.1 r.2.1 r.2.2 hall (by rw [hrec])
              rw [← h.1, this]
    · rw [if_neg hp] at h
      cases h

/-- C5: for every crawl run and caller-supplied set of already-collected
posts (the accumulator of the loop, which `process_blog_posts` receives
as `existing_posts`), the records the run adds have pairwise-distinct
urls, none of which occurs in the supplied set; consequently the
top-level crawl (started from the empty set) returns a list with no two
equal urls, and a run whose every matching card is already in the
supplied set adds nothing. -/
theorem c5_url_uniqueness :
    (∀ (env : CrawlEnv) (target : String) (fuel k : Nat)
        (existing final : List Item) (tr : List CrawlEvent) (warn : Bool),
      crawlAux env target fuel k existing = .ok (final, tr, warn) →
      ∃ fresh, final = existing ++ fresh ∧
        (∀ p ∈ fresh, hasUrl existing p.url = false) ∧
        ((fresh.map fun p => p.url).Nodup)) ∧
    (∀ (env : CrawlEnv) (target : String) (maxLoads : Nat)
        (final : List Item) (tr : List CrawlEvent) (warn : Bool),
      get_blog_posts_for_date env target maxLoads = .ok (final, tr, warn) →
      ((final.map fun p => p.url).Nodup)) ∧
    (∀ (env : CrawlEnv) (target : String) (fuel k : Nat)
        (existing final : List Item) (tr : List CrawlEvent) (warn : Bool),
      (∀ j c, c ∈ env.cards j → ∀ info, extract_post_info c = some info →
        info.date = target → hasUrl existing info.url = true) →
      crawlAux env target fuel k existing = .ok (final, tr, warn) →
      final = existing) := by
  refine ⟨fun env target fuel k existing final tr warn h =>
      crawlAux_fresh env target fuel k existing final tr warn h,
    fun env target maxLoads final tr warn h => ?_,
    fun env target fuel k existing final tr warn hall h =>
      crawlAux_no_new env target fuel k existing final tr warn hall h⟩
  rw [get_blog_posts_for_date] at h
  split at h
  · obtain ⟨fresh, h1, -, h3⟩ := crawlAux_fresh env target maxLoads 0 [] final tr warn h
    rw [h1, List.nil_append]
    exact h3
  · cases h

/-- C5 witness: re-running the one-page crawl with its sole post
`itemA` already supplied collects nothing new. -/
theorem c5_url_uniqueness_witness : ([itemA] : List Item) = [itemA] :=
  c5_url_uniqueness.2.2 c2Env "d1" 1 0 [itemA] [itemA]
    [CrawlEvent.scan 0 true, CrawlEvent.button 0 false] false
    (by
      intro j c hc info hext hdate
      have hc' : c = cardA := by simpa [c2Env] using hc
      subst hc'
      have hA : extract_post_info cardA = some itemA := by decide
      rw [hA] at hext
      obtain rfl := (Option.some.inj hext)
      decide)
    rfl

/-- The concrete post of the C3 counterexample: its url contains the
base prefix but does not start with it. -/
def c3Post : Item := { url := "Zhttps://aws.amazon.com/blogs/security/foo" }

/-- C3 counterexample: `get_category_from_url` tests substring
containment (`base_url in url`), not a prefix.  For a url that contains
but does not start with the base prefix, the claim requires the fallback
`"unknown"`; the code removes every occurrence of the prefix and takes
the first `/`-segment, yielding `"Zsecurity"`. -/
theorem c3_counterexample_substring_match :
    (get_category_from_url [c3Post]).1 = [{ c3Post with category := some "Zsecurity" }] ∧
    blogsBaseUrl.data.isPrefixOf c3Post.url.data = false ∧
    ("Zsecurity" : String) ≠ "unknown" :=
  ⟨by decide, by decide, by decide⟩

/-- C3 (amended): a post's category is the first `/`-segment of its url
with every occurrence of the base prefix removed whenever the url
contains the prefix anywhere (for a url that starts with the prefix and
contains it only once this is the segment immediately following it, as
in the spec's example), and the fallback `"unknown"` otherwise. -/
theorem c3_url_segment_categorization :
    (∀ posts : List Item,
      (get_category_from_url posts).1 =
        posts.map (fun p =>
          { p with
              category := some (if pyIn blogsBaseUrl p.url then urlCategory p.url else "unknown") })) ∧
    (get_category_from_url [{ url := "https://aws.amazon.com/blogs/security/foo" }]).1 =
      [{ url := "https://aws.amazon.com/blogs/security/foo", category := some "security" }] ∧
    (get_category_from_url [{ url := "https://other.com/z" }]).1 =
      [{ url := "https://other.com/z", category := some "unknown" }] :=
  ⟨fun posts => getCategoryFromUrlAux_fst posts [], by decide, by decide⟩

/-- C7: `wait_for_new_content` implements the three-tier wait exactly:
success of the 15000 ms count wait returns true; otherwise a count
increase re-sampled after the fixed 5000 ms wait returns true; otherwise
absence of the load-more control after the further 3000 ms wait returns
false; otherwise the final re-sample returns true iff the count
increased. -/
theorem c7_three_tier_wait :
    strategy1TimeoutMs = 15000 ∧ strategy2WaitMs = 5000 ∧ strategy3WaitMs = 3000 ∧
    ∀ (e : WaitEnv) (previousCount : Nat),
      (e.countIncreasedWithin15s = true → wait_for_new_content e previousCount = true) ∧
      (e.countIncreasedWithin15s = false → previousCount < e.countAfter5s →
        wait_for_new_content e previousCount = true) ∧
      (e.countIncreasedWithin15s = false → ¬ previousCount < e.countAfter5s →
        e.buttonPresentAfter3s = false → wait_for_new_content e previousCount = false) ∧
      (e.countIncreasedWithin15s = false → ¬ previousCount < e.countAfter5s →
        e.buttonPresentAfter3s = true →
        (wait_for_new_content e previousCount = true ↔ previousCount < e.finalCount)) := by
  refine ⟨rfl, rfl, rfl, fun e previousCount => ⟨?_, ?_, ?_, ?_⟩⟩ <;>
    intro h1 <;> simp [wait_for_new_content, h1]
  · intro h2
    simp [h2]
  · intro h2 h3
    simp [h2, h3]
  · intro h2 h3
    simp [h2, h3]

/-- C7 witness: tier-four outcome on a concrete environment where the
first three tiers are indecisive and the final count increased. -/
theorem c7_three_tier_wait_witness :
    wait_for_new_content ⟨false, 2, true, 10⟩ 5 = true :=
  ((c7_three_tier_wait.2.2.2 ⟨false, 2, true, 10⟩ 5).2.2.2 rfl (by decide) rfl).mpr (by decide)

/-- The concrete post list of the C10 counterexample: the first url gets
the fallback, the second derives the category `"unknown"` from its
url. -/
def c10Posts : List Item :=
  [{ url := "https://other.com/z" }, { url := "https://aws.amazon.com/blogs/unknown/foo" }]

/-- C10 counterexample: the claim says `"unknown"`, even when assigned
as fallback, never appears in the returned categories list.  But a url
containing the base prefix whose following segment is literally
`unknown` derives the category `"unknown"`, which is then added to the
list — here while the fallback is simultaneously assigned to another
post. -/
theorem c10_counterexample_derived_unknown :
    (get_category_from_url c10Posts).1.map (fun p => p.category) =
      [some "unknown", some "unknown"] ∧
    "unknown" ∈ (get_category_from_url c10Posts).2 :=
  ⟨by decide, by decide⟩

/-- C10 (amended): the returned categories list contains exactly the
distinct categories derived from urls containing the base prefix; the
fallback branch never adds to it, so `"unknown"` can only appear as a
category derived from such a url (as in the counterexample), never from
the fallback assignment alone. -/
theorem c10_categories_exactly_derived :
    (∀ (posts : List Item) (c : String),
      c ∈ (get_category_from_url posts).2 ↔
        ∃ p, p ∈ posts ∧ pyIn blogsBaseUrl p.url = true ∧ urlCategory p.url = c) ∧
    (∀ posts : List Item,
      (∀ p ∈ posts, pyIn blogsBaseUrl p.url = true → urlCategory p.url ≠ "unknown") →
      "unknown" ∉ (get_category_from_url posts).2) := by
  have key : ∀ (posts : List Item) (c : String),
      c ∈ (get_category_from_url posts).2 ↔
        ∃ p, p ∈ posts ∧ pyIn blogsBaseUrl p.url = true ∧ urlCategory p.url = c := by
    intro posts c
    rw [get_category_from_url, mem_getCategoryFromUrlAux_snd]
    simp
  refine ⟨key, fun posts h hmem => ?_⟩
  rcases (key posts "unknown").mp hmem with ⟨p, hp, hin, hder⟩
  exact h p hp hin hder

/-- C10 witness: with a single prefix-containing url deriving
`"security"`, the fallback never having contributed, `"unknown"` is not
in the returned list. -/
theorem c10_categories_exactly_derived_witness :
    "unknown" ∉ (get_category_from_url [{ url := "https://aws.amazon.com/blogs/security/x" }]).2 :=
  c10_categories_exactly_derived.2 _ (by decide)

/-- The info sub-element text a card would yield (empty when absent). -/
def infoTextOf (c : Card) : String := (c.infoDiv.getD none).getD ""
/-- The stripped comma-segments of a card's info text. -/
def partsOf (c : Card) : List String := (pySplit (pyStrip (infoTextOf c)) ",").map pyStrip
/-- The stripped title-link text of a card (empty when absent). -/
def titleTextOf (c : Card) : String := pyStrip ((c.titleAnchor.getD (none, none)).1.getD "")
/-- The stripped href of a card's title link (empty when absent). -/
def hrefOf (c : Card) : String := pyStrip ((c.titleAnchor.getD (none, none)).2.getD "")

/-- Extraction fails exactly on a read failure, a missing info
sub-element, blank info text, fewer than two comma segments, a missing
title link, or a blank title or href. -/
theorem extract_none_iff (c : Card) :
    extract_post_info c = none ↔
      c.readFail = true ∨ c.infoDiv = none ∨ pyStrip (infoTextOf c) = "" ∨
      (partsOf c).length < 2 ∨ c.titleAnchor = none ∨
      titleTextOf c = "" ∨ hrefOf c = "" := by
  rw [extract_post_info]
  simp only [partsOf, titleTextOf, hrefOf, infoTextOf]
  cases hrf : c.readFail <;> cases hid : c.infoDiv <;> cases hta : c.titleAnchor <;>
    simp only [hrf, hid, hta, Option.getD_some, Option.getD_none] <;>
    split_ifs <;> simp_all

/-- A successful extraction's fields: the date is the last trimmed
comma-segment, the author the preceding segments joined with `", "`,
and the description defaults to the empty string when the description
sub-element is absent. -/
theorem extract_some_fields (c : Card) (info : Item) :
    extract_post_info c = some info →
    info.date = (partsOf c).getLastD "" ∧
    info.author = pyJoin ", " (partsOf c).dropLast ∧
    info.title = titleTextOf c ∧ info.url = hrefOf c ∧
    (c.descDiv = none → info.description = "") := by
  intro h
  rw [extract_post_info] at h
  cases hrf : c.readFail <;> rw [hrf] at h
  case false =>
    simp only [Bool.false_eq_true, if_false] at h
    cases hid : c.infoDiv <;> rw [hid] at h
    case none => simp at h
    case some it =>
      simp only [Option.getD_some] at h
      by_cases h1 : pyStrip (it.getD "") = ""
      · rw [if_pos h1] at h
        simp at h
      · rw [if_neg h1] at h
        by_cases h2 : ((pySplit (pyStrip (it.getD "")) ",").map pyStrip).length < 2
        · rw [if_pos h2] at h
          simp at h
        · rw [if_neg h2] at h
          cases hta : c.titleAnchor <;> simp only [hta] at h
          next =>
            simp at h
          next ta =>
            by_cases h3 : pyStrip (ta.1.getD "") = "" ∨ pyStrip (ta.2.getD "") = ""
            · rw [if_pos h3] at h
              simp at h
            · rw [if_neg h3] at h
              obtain rfl := Option.some.inj h
              simp only [partsOf, titleTextOf, hrefOf, infoTextOf, hid, hta,
                Option.getD_some]
              refine ⟨trivial, trivial, trivial, trivial, fun hd => ?_⟩
              simp [hd]
  case true => simp at h



/-- The matching-posts component of the page-scan loop does not depend
on the card index, the page card count or the incoming
`last_post_matches` flag (those only feed the returned flag). -/
theorem processPostsGo_fst_irrel (target : String) (existing : List Item) :
    ∀ (cards : List Card) (total total' i i' : Nat) (matching : List Item) (b b' : Bool),
      (processPostsGo target existing total i cards matching b).1 =
      (processPostsGo target existing total' i' cards matching b').1 := by
  intro cards
  induction cards with
  | nil => intro _ _ _ _ _ _ _; rfl
  | cons c rest ih =>
    intro total total' i i' matching b b'
    rw [processPostsGo, processPostsGo]
    cases hext : extract_post_info c with
    | none => exact ih total total' (i + 1) (i' + 1) matching b b'
    | some info =>
      simp only []
      exact ih total total' (i + 1) (i' + 1) _ _ _

/-- A card whose extraction fails contributes nothing to the page-scan
loop's matching-posts component: deleting it leaves that component
unchanged. -/
theorem processPostsGo_skip_none (target : String) (existing : List Item) :
    ∀ (cs1 : List Card) (c : Card) (cs2 : List Card) (total total' i i' : Nat)
      (matching : List Item) (b b' : Bool),
      extract_post_info c = none →
      (processPostsGo target existing total i (cs1 ++ c :: cs2) matching b).1 =
      (processPostsGo target existing total' i' (cs1 ++ cs2) matching b').1 := by
  intro cs1
  induction cs1 with
  | nil =>
    intro c cs2 total total' i i' matching b b' hnone
    rw [List.nil_append, List.nil_append, processPostsGo]
    simp only [hnone]
    exact processPostsGo_fst_irrel target existing cs2 total total' (i + 1) i' matching b b'
  | cons d cs1 ih =>
    intro c cs2 total total' i i' matching b b' hnone
    rw [List.cons_append, List.cons_append, processPostsGo, processPostsGo]
    cases hd : extract_post_info d with
    | none => exact ih c cs2 total total' (i + 1) (i' + 1) matching b b' hnone
    | some info =>
      simp only []
      exact ih c cs2 total total' (i + 1) (i' + 1) _ _ _ hnone

/-- A two-page session: page 0 shows `cardA`; after one extension the
page also shows `cardB`; the extend control exists only at cycle 0. -/
def c6EnvWithout : CrawlEnv :=
  { cards := fun k => if k = 0 then [cardA] else [cardA, cardB],
    buttonFound := fun k => k == 0,
    clickOk := fun k => k == 0 }

/-- The same session as `c6EnvWithout` but with the malformed `cardBad`
present at the end of the listing. -/
def c6EnvWith : CrawlEnv :=
  { cards := fun k => if k = 0 then [cardA, cardBad] else [cardA, cardBad, cardB],
    buttonFound := fun k => k == 0,
    clickOk := fun k => k == 0 }

/-- C6 counterexample: the claim says a card yielding `none` never
affects the collected set.  The malformed trailing card is indeed never
collected and never aborts the scan — but because the last visible
card's extraction failed, `last_post_matches` stays false, the crawl
stops after page 0 and `itemB` is never discovered: with the card the
crawl collects `[itemA]`, without it `[itemA, itemB]`. -/
theorem c6_counterexample_trailing_malformed_card :
    extract_post_info cardBad = none ∧
    c6EnvWith.cards 0 = c6EnvWithout.cards 0 ++ [cardBad] ∧
    get_blog_posts_for_date c6EnvWith "d1" 50 =
      .ok ([itemA], [CrawlEvent.scan 0 false], false) ∧
    get_blog_posts_for_date c6EnvWithout "d1" 50 =
      .ok ([itemA, itemB],
        [CrawlEvent.scan 0 true, CrawlEvent.button 0 true, CrawlEvent.click 0 true,
         CrawlEvent.scan 1 true, CrawlEvent.button 1 false], false) ∧
    ([itemA] : List Item) ≠ [itemA, itemB] :=
  ⟨by decide, by decide, rfl, rfl, by decide⟩

/-- C6 (amended): extraction returns `none` exactly when the info text
is absent or blank, splitting yields fewer than two trimmed segments,
the title link or its text or href is missing or empty, or a read
failed; a successful record has the claimed date/author/description
fields; and a card yielding `none` contributes no record to the page's
matching set and never aborts the page scan — though, as the
counterexample shows, such a card in the trailing position clears the
date-match signal and can end the crawl before later pages are
scanned. -/
theorem c6_extract_failure_characterization :
    (∀ c : Card,
      extract_post_info c = none ↔
        c.readFail = true ∨ c.infoDiv = none ∨ pyStrip (infoTextOf c) = "" ∨
        (partsOf c).length < 2 ∨ c.titleAnchor = none ∨
        titleTextOf c = "" ∨ hrefOf c = "") ∧
    (∀ (c : Card) (info : Item), extract_post_info c = some info →
      info.date = (partsOf c).getLastD "" ∧
      info.author = pyJoin ", " (partsOf c).dropLast ∧
      info.title = titleTextOf c ∧ info.url = hrefOf c ∧
      (c.descDiv = none → info.description = "")) ∧
    (∀ (target : String) (existing : List Item) (cs1 cs2 : List Card) (c : Card),
      extract_post_info c = none →
      (process_blog_posts target existing (cs1 ++ c :: cs2)).1 =
        (process_blog_posts target existing (cs1 ++ cs2)).1) :=
  ⟨extract_none_iff,
   extract_some_fields,
   fun target existing cs1 cs2 c hnone =>
     processPostsGo_skip_none target existing cs1 c cs2
       (cs1 ++ c :: cs2).length (cs1 ++ cs2).length 0 0 [] false false hnone⟩

/-- C6 witness: deleting the malformed card from a concrete page leaves
the page's matching set unchanged. -/
theorem c6_extract_failure_characterization_witness :
    (process_blog_posts "d1" [] ([cardA] ++ cardBad :: [])).1 =
      (process_blog_posts "d1" [] ([cardA] ++ [])).1 :=
  c6_extract_failure_characterization.2.2 "d1" [] [cardA] [] cardBad (by decide)

/-- A key present after a categories insert was present before or is
the inserted key. -/
theorem mem_keys_setCategories :
    ∀ (m : List (String × ResultEntry)) (pid : String) (cats : List String) (q : String),
      q ∈ (setCategories m pid cats).map Prod.fst → q ∈ m.map Prod.fst ∨ q = pid := by
  intro m pid cats
  induction m with
  | nil =>
    intro q hq
    simp only [setCategories, List.map_cons, List.map_nil, List.mem_singleton] at hq
    exact Or.inr hq
  | cons a rest ih =>
    intro q hq
    rw [setCategories] at hq
    split at hq
    · next heq =>
      simp only [List.map_cons, List.mem_cons] at hq
      rcases hq with rfl | hq
      · exact Or.inl (by simp)
      · exact Or.inl (by simp [hq])
    · simp only [List.map_cons, List.mem_cons] at hq
      rcases hq with rfl | hq
      · exact Or.inl (by simp)
      · rcases ih q hq with h | h
        · exact Or.inl (by simp [h])
        · exact Or.inr h

/-- A key present after a summary insert was present before or is the
inserted key. -/
theorem mem_keys_setSummary :
    ∀ (m : List (String × ResultEntry)) (pid : String) (s : String) (q : String),
      q ∈ (setSummary m pid s).map Prod.fst → q ∈ m.map Prod.fst ∨ q = pid := by
  intro m pid s
  induction m with
  | nil =>
    intro q hq
    simp only [setSummary, List.map_cons, List.map_nil, List.mem_singleton] at hq
    exact Or.inr hq
  | cons a rest ih =>
    intro q hq
    rw [setSummary] at hq
    split at hq
    · next heq =>
      simp only [List.map_cons, List.mem_cons] at hq
      rcases hq with rfl | hq
      · exact Or.inl (by simp)
      · exact Or.inl (by simp [hq])
    · simp only [List.map_cons, List.mem_cons] at hq
      rcases hq with rfl | hq
      · exact Or.inl (by simp)
      · rcases ih q hq with h | h
        · exact Or.inl (by simp [h])
        · exact Or.inr h

/-- A key present after parsing the categorization records was present
before or stems from some record's id with `_cat` removed. -/
theorem mem_keys_parseCatLines :
    ∀ (rs : List InferenceRecord) (m : List (String × ResultEntry)) (q : String),
      q ∈ (parseCatLines rs m).map Prod.fst →
      q ∈ m.map Prod.fst ∨ ∃ r ∈ rs, pyReplace r.recordId "_cat" "" = q := by
  intro rs
  induction rs with
  | nil => intro m q hq; exact Or.inl hq
  | cons r rest ih =>
    intro m q hq
    rw [parseCatLines] at hq
    rcases ih _ q hq with h | ⟨r', hr', hr2⟩
    · rcases mem_keys_setCategories m (pyReplace r.recordId "_cat" "") _ q h with h | rfl
      · exact Or.inl h
      · exact Or.inr ⟨r, List.mem_cons_self _ _, rfl⟩
    · exact Or.inr ⟨r', List.mem_cons_of_mem _ hr', hr2⟩

/-- A key present after parsing the summarization records was present
before or stems from some record's id with `_sum` removed. -/
theorem mem_keys_parseSumLines :
    ∀ (rs : List InferenceRecord) (m : List (String × ResultEntry)) (q : String),
      q ∈ (parseSumLines rs m).map Prod.fst →
      q ∈ m.map Prod.fst ∨ ∃ r ∈ rs, pyReplace r.recordId "_sum" "" = q := by
  intro rs
  induction rs with
  | nil => intro m q hq; exact Or.inl hq
  | cons r rest ih =>
    intro m q hq
    rw [parseSumLines] at hq
    rcases ih _ q hq with h | ⟨r', hr', hr2⟩
    · rcases mem_keys_setSummary m (pyReplace r.recordId "_sum" "") _ q h with h | rfl
      · exact Or.inl h
      · exact Or.inr ⟨r, List.mem_cons_self _ _, rfl⟩
    · exact Or.inr ⟨r', List.mem_cons_of_mem _ hr', hr2⟩

/-- The writes of the update fold: one store write per result entry
whose id has a stored item, in order. -/
theorem update_posts_writes_aux (store : String → Option Item) :
    ∀ (results : List (String × ResultEntry)) (n : Nat) (acc : List Item),
      (results.foldl
        (fun acc pe =>
          match store pe.1 with
          | some item => (acc.1 + 1, acc.2 ++ [updateItemWith item pe.2])
          | none => acc) (n, acc)).2 =
      acc ++ results.filterMap (fun pe => (store pe.1).map (fun item => updateItemWith item pe.2)) := by
  intro results
  induction results with
  | nil => intro n acc; simp
  | cons pe rest ih =>
    intro n acc
    rw [List.foldl_cons, List.filterMap_cons]
    cases hs : store pe.1 with
    | none =>
      simp only [hs, Option.map_none']
      exact ih n acc
    | some item =>
      simp only [hs, Option.map_some']
      rw [ih]
      simp



/-- A store holding only the submitted post `p1`. -/
def c4Store : String → Option Item := fun pid => if pid = "p1" then some { id := "p1" } else none

/-- C4 counterexample: the claim says a post absent from both output
files still appears in the merged, updated result with both fallbacks.
With post `p1` in the store but both output files empty, the parsed
results dict is empty and the update writes nothing: `p1` is dropped
from the merge, not fallback-updated. -/
theorem c4_counterexample_absent_post_dropped :
    c4Store "p1" = some { id := "p1" } ∧
    download_and_parse_results (some []) (some []) = [] ∧
    update_posts_with_results (download_and_parse_results (some []) (some [])) c4Store = (0, []) :=
  ⟨by decide, rfl, rfl⟩

/-- C4 (amended): a post with a categorization output record but no
summarization record keeps its parsed categories and receives the
fallback summary `"Summary not available."` (and symmetrically
`"Uncategorized"` for a missing categorization half); the merge writes
exactly one item per parsed result id found in the store; but a post
absent from BOTH output files never enters the parsed results at all
and is therefore omitted from the merged, updated result rather than
appearing with both fallbacks. -/
theorem c4_merge_fallbacks :
    download_and_parse_results (some [⟨"p1_cat", "Storage, Security"⟩]) (some []) =
      [("p1", { categories := some ["Storage", "Security"], summary := none })] ∧
    (∀ (item : Item) (e : ResultEntry),
      (e.summary = none → (updateItemWith item e).summary = some "Summary not available.") ∧
      (e.categories = none → (updateItemWith item e).category = some "Uncategorized") ∧
      (∀ cs, e.categories = some cs → (updateItemWith item e).category = some (pyJoin "," cs))) ∧
    (∀ (results : List (String × ResultEntry)) (store : String → Option Item),
      (update_posts_with_results results store).2 =
        results.filterMap (fun pe => (store pe.1).map (fun item => updateItemWith item pe.2))) ∧
    (∀ (catRecs sumRecs : List InferenceRecord) (pid : String),
      (∀ r ∈ catRecs, pyReplace r.recordId "_cat" "" ≠ pid) →
      (∀ r ∈ sumRecs, pyReplace r.recordId "_sum" "" ≠ pid) →
      pid ∉ (download_and_parse_results (some catRecs) (some sumRecs)).map Prod.fst) := by
  refine ⟨by decide, ?_, ?_, ?_⟩
  · intro item e
    refine ⟨fun hs => ?_, fun hc => ?_, fun cs hc => ?_⟩
    · simp [updateItemWith, hs]
    · simp [updateItemWith, hc, pyJoin]
    · simp [updateItemWith, hc]
  · intro results store
    exact update_posts_writes_aux store results 0 []
  · intro catRecs sumRecs pid hcat hsum hmem
    rw [download_and_parse_results] at hmem
    rcases mem_keys_parseSumLines sumRecs _ pid hmem with h | ⟨r, hr, hr2⟩
    · rcases mem_keys_parseCatLines catRecs [] pid h with h | ⟨r, hr, hr2⟩
      · simp at h
      · exact hcat r hr hr2
    · exact hsum r hr hr2

/-- C4 witness: an id matching no output record is absent from the
parsed results of a concrete run. -/
theorem c4_merge_fallbacks_witness :
    "p9" ∉ (download_and_parse_results (some [⟨"p1_cat", "A"⟩]) (some [⟨"p1_sum", "S"⟩])).map
      Prod.fst :=
  c4_merge_fallbacks.2.2.2 [⟨"p1_cat", "A"⟩] [⟨"p1_sum", "S"⟩] "p9" (by decide) (by decide)



/-- A job status trace that first shows `Completed` at poll 61 — after
the 3600 s monitoring deadline (elapsed 60 s × 61 = 3660 s). -/
def lateStatus (k : Nat) : JobStatus := if k < 61 then .inProgress else .completed

/-- A batch run whose two jobs both follow `lateStatus` and whose
output files and store would let a merge happen. -/
def c8Env : BatchEnv :=
  { posts := fun _ => .ok [{ id := "p1" }],
    parseTimestamp := fun _ => .ok 1750312800,
    catStatus := lateStatus,
    sumStatus := lateStatus,
    catFile := some [⟨"p1_cat", "Storage"⟩],
    sumFile := some [⟨"p1_sum", "S."⟩],
    store := fun pid => if pid = "p1" then some { id := "p1" } else none }

/-- C8 counterexample: the claim says a job not reaching `Completed`
before the 60-minute deadline makes the run fail without merging.  The
monitor checks the status before the timeout, so a completion first
observed at the poll after the deadline expired (poll 61, elapsed
3660 s > 3600 s; no earlier poll saw `Completed`) still counts as
success, and the run goes on to merge and persist. -/
theorem c8_counterexample_completion_after_deadline :
    ((List.range 61).all fun k => lateStatus k ≠ JobStatus.completed) = true ∧
    monitorPollIntervalSeconds * 61 > monitorMaxWaitSeconds ∧
    monitor_batch_job lateStatus = true ∧
    (run_batch_inference c8Env (some "06/19/2025")).1.error = none ∧
    (run_batch_inference c8Env (some "06/19/2025")).2 ≠ [] :=
  ⟨by decide, by decide, by decide, by decide, by decide⟩

/-- A job that never reports `Completed` can never make the monitor
succeed. -/
theorem monitorAux_never_true (status : Nat → JobStatus)
    (hnc : ∀ k, status k ≠ .completed) :
    ∀ (fuel k : Nat), monitorAux status fuel k ≠ some true := by
  intro fuel
  induction fuel with
  | zero => intro k h; simp [monitorAux] at h
  | succ fuel ih =>
    intro k h
    rw [monitorAux] at h
    split at h
    · next heq => exact hnc k heq
    · simp at h
    · split at h
      · simp at h
      · exact ih (k + 1) h

/-- C8 (amended): if either job's monitor reports failure — which is
guaranteed whenever the job never reaches `Completed`, though a
completion first observed at the single poll after the deadline still
counts as success — the run returns the structured
`{"error": "One or more batch jobs failed"}` object and persists
nothing (no partial merge); and on every input the run returns a
structured result object (an error or a processed count) rather than
raising. -/
theorem c8_monitor_failure_policy :
    (∀ status : Nat → JobStatus, (∀ k, status k ≠ .completed) →
      monitor_batch_job status = false) ∧
    (∀ (env : BatchEnv) (d : String) (posts : List Item) (ts : Nat)
        (role catArn sumArn : String),
      env.posts (some d) = .ok posts → posts ≠ [] →
      env.parseTimestamp d = .ok ts → env.roleArn = .ok role →
      env.submitCat = .ok catArn → env.submitSum = .ok sumArn →
      (monitor_batch_job env.catStatus = false ∨ monitor_batch_job env.sumStatus = false) →
      run_batch_inference env (some d) = ({ error := some "One or more batch jobs failed" }, [])) ∧
    (∀ (env : BatchEnv) (date : Option String),
      (run_batch_inference env date).1.error.isSome ∨
      (run_batch_inference env date).1.processedCount.isSome) := by
  refine ⟨?_, ?_, ?_⟩
  · intro status h
    rw [monitor_batch_job]
    cases hm : monitorAux status 62 0 with
    | none => rfl
    | some b =>
      cases b with
      | true => exact absurd hm (monitorAux_never_true status h 62 0)
      | false => rfl
  · intro env d posts ts role catArn sumArn hposts hne hts hrole hcat hsum hmon
    have hb : (monitor_batch_job env.catStatus && monitor_batch_job env.sumStatus) = false := by
      rcases hmon with h | h <;> simp [h]
    rw [run_batch_inference]
    simp only [hposts, hts, hrole, hcat, hsum, if_neg hne, hb, Bool.not_false, if_true]
  · intro env date
    rw [run_batch_inference.eq_def]
    repeat' split
    all_goals simp
    all_goals (split <;> simp)

/-- C8 witness: with the categorization job failing outright, a
concrete run returns the structured failure and writes nothing. -/
theorem c8_monitor_failure_policy_witness :
    run_batch_inference
      { posts := fun _ => .ok [{ id := "p1" }],
        catStatus := fun _ => JobStatus.failed } (some "06/19/2025") =
      ({ error := some "One or more batch jobs failed" }, []) :=
  c8_monitor_failure_policy.2.1
    { posts := fun _ => .ok [{ id := "p1" }], catStatus := fun _ => JobStatus.failed }
    "06/19/2025" [{ id := "p1" }] 0 "role" "cat-arn" "sum-arn"
    rfl (by decide) rfl rfl rfl rfl (Or.inl (by decide))

/-- Every non-raising path of the scraper handler's try block returns
status 200. -/
theorem scraper_core_ok_status (env : ScraperEnv) (r : ScraperResponse)
    (h : scraper_handler_core env = .ok r) : r.statusCode = 200 := by
  rw [scraper_handler_core] at h
  split at h
  · simp at h
  · next x existing heq =>
    by_cases hex : existing ≠ []
    · rw [if_pos hex] at h
      obtain rfl := Except.ok.inj h
      rfl
    · rw [if_neg hex] at h
      split at h
      · simp at h
      · next x2 r2 heq2 =>
        by_cases h1 : r2.1 = []
        · rw [if_pos h1] at h
          obtain rfl := Except.ok.inj h
          rfl
        · rw [if_neg h1] at h
          split at h
          · simp at h
          · obtain rfl := Except.ok.inj h
            rfl



/-- Every non-raising path of the categorizer handler's try block
returns status 200. -/
theorem categorizer_core_ok_status (env : CategorizerEnv) (r : CategorizerResponse)
    (h : categorizer_handler_core env = .ok r) : r.statusCode = 200 := by
  rw [categorizer_handler_core] at h
  by_cases hg : env.genaiModel
  · rw [if_pos hg] at h
    obtain rfl := Except.ok.inj h
    rfl
  · rw [if_neg hg] at h
    split at h
    · simp at h
    · next x d heq =>
      split at h
      · simp at h
      · next x2 posts heq2 =>
        by_cases hp : posts = []
        · rw [if_pos hp] at h
          obtain rfl := Except.ok.inj h
          rfl
        · rw [if_neg hp] at h
          simp only [] at h
          split at h
          · simp at h
          · split at h
            · simp at h
            · obtain rfl := Except.ok.inj h
              rfl

/-- C9: both entry points return only status 200 or 500; any exception
of the try block is converted to a 500 response whose body is the fixed
prefix concatenated with the error's message; and finding no matching
posts for the target date yields a 200 informational response on both
handlers, distinct from any 500. -/
theorem c9_status_codes :
    (∀ senv : ScraperEnv,
      (scraper_lambda_handler senv).statusCode = 200 ∨
      (scraper_lambda_handler senv).statusCode = 500) ∧
    (∀ cenv : CategorizerEnv,
      (categorizer_lambda_handler cenv).statusCode = 200 ∨
      (categorizer_lambda_handler cenv).statusCode = 500) ∧
    (∀ (senv : ScraperEnv) (e : String), scraper_handler_core senv = .error e →
      scraper_lambda_handler senv = ⟨500, .msg ("Error scraping AWS blog: " ++ e)⟩) ∧
    (∀ (cenv : CategorizerEnv) (e : String), categorizer_handler_core cenv = .error e →
      categorizer_lambda_handler cenv = ⟨500, .msg ("Error processing post: " ++ e)⟩) ∧
    (∀ (senv : ScraperEnv) (r : List Item × List CrawlEvent × Bool),
      senv.getPostsByDate
        (scraper_select_target_date senv.eventTargetDate senv.previousDate) = .ok [] →
      get_blog_posts_for_date senv.crawl
        (scraper_select_target_date senv.eventTargetDate senv.previousDate)
        defaultMaxLoads = .ok r →
      r.1 = [] →
      scraper_lambda_handler senv =
        ⟨200, .msg ("No blog posts found for the target date: " ++
          scraper_select_target_date senv.eventTargetDate senv.previousDate)⟩) ∧
    (∀ cenv : CategorizerEnv, cenv.genaiModel = false → cenv.eventDate.isSome = true →
      cenv.getUnprocessedPostsByDate cenv.previousDate = .ok [] →
      categorizer_lambda_handler cenv =
        ⟨200, .msg ("No unprocessed posts found for date " ++ cenv.previousDate)⟩) := by
  refine ⟨?_, ?_, ?_, ?_, ?_, ?_⟩
  · intro senv
    rw [scraper_lambda_handler]
    cases hc : scraper_handler_core senv with
    | ok r => exact Or.inl (scraper_core_ok_status senv r hc)
    | error e => exact Or.inr rfl
  · intro cenv
    rw [categorizer_lambda_handler]
    cases hc : categorizer_handler_core cenv with
    | ok r => exact Or.inl (categorizer_core_ok_status cenv r hc)
    | error e => exact Or.inr rfl
  · intro senv e he
    rw [scraper_lambda_handler, he]
  · intro cenv e he
    rw [categorizer_lambda_handler, he]
  · intro senv r hget hscrape hempty
    have hcore : scraper_handler_core senv =
        .ok ⟨200, .msg ("No blog posts found for the target date: " ++
          scraper_select_target_date senv.eventTargetDate senv.previousDate)⟩ := by
      rw [scraper_handler_core]
      simp only [hget, hscrape, hempty, ne_eq, not_true_eq_false, if_false,
        if_true, List.length_nil]
      try simp
    rw [scraper_lambda_handler, hcore]
  · intro cenv hgen hdate hget
    obtain ⟨d, hd⟩ := Option.isSome_iff_exists.mp hdate
    have hcore : categorizer_handler_core cenv =
        .ok ⟨200, .msg ("No unprocessed posts found for date " ++ cenv.previousDate)⟩ := by
      rw [categorizer_handler_core]
      simp only [hgen, Bool.false_eq_true, if_false, categorizer_select_date, hd, hget]
      try simp
    rw [categorizer_lambda_handler, hcore]



/-- C9 witness: a failing store read on a concrete scraper environment
becomes a 500 response carrying the error message. -/
theorem c9_status_codes_witness :
    scraper_lambda_handler { getPostsByDate := fun _ => .error "boom" } =
      ⟨500, ScraperBody.msg ("Error scraping AWS blog: " ++ "boom")⟩ :=
  c9_status_codes.2.2.1 { getPostsByDate := fun _ => .error "boom" } "boom" rfl

end AwsNews
